import Mathlib

/-!
Verification of the event-to-calendar pipeline of the repository.

The repository source file src/index.ts holds two variants of the worker,
separated by a document marker: variant A (template-string builder, escape
order backslash/newline/semicolon/comma, joined with LF) and variant B
(line-array builder with a Map based attendee resolver, joined with CRLF).
Both are embedded below.  JS `any` shaped event records are embedded as a
structure of optional string fields; JS truthiness of such a field (absent
or empty string means falsy) is `otruthy`.  External environment calls
(clock, crypto.randomUUID, the Date based UTC formatter of variant B) are
threaded in as explicit function parameters.
-/

/-- JS truthiness of an optional string field: an absent field and the
empty string are falsy, every other string is truthy. -/
def otruthy : Option String → Bool
  | none => false
  | some s => !s.isEmpty

/-- JS `x || d` on an optional string field. -/
def jsOr (o : Option String) (d : String) : String :=
  match o with
  | none => d
  | some s => if s.isEmpty then d else s

/-- Per-character action of a JS global single-character `replace`. -/
def replChar (target : Char) (repl : List Char) (c : Char) : List Char :=
  if c = target then repl else [c]

/-- JS `s.replace(/x/g, r)` for a single-character pattern `x`:
every occurrence of the character is replaced by the string `r`. -/
def jsReplaceAll (target : Char) (repl : List Char) (s : String) : String :=
  ⟨s.data.flatMap (replChar target repl)⟩

/-- Number of occurrences of the line `a` in a list of lines. -/
def countEq (a : String) : List String → Nat
  | [] => 0
  | b :: l => (if b = a then 1 else 0) + countEq a l

/-- An attendee record as delivered by the extraction step: both fields may
be absent (JS `undefined`). -/
structure RawAttendee where
  name : Option String
  email : Option String

/-- A fixed configured attendee (both fields always present). -/
structure Attendee where
  name : String
  email : String

/-- The hard-coded fallback attendee list of the source. -/
def ATTENDEES : List Attendee :=
  [⟨"Storm Ellis", "storm.ellis@hutchins.tas.edu.au"⟩]

/-- One extracted event record.  Fields mirror the keys read by the source
(`title`, `start`, `end` — here `endTime` —, `location`, `description`, the
four AV annotation keys, `attendees`); each may be absent. -/
structure EventRecord where
  title : Option String := none
  start : Option String := none
  endTime : Option String := none
  location : Option String := none
  description : Option String := none
  avRequestLocation : Option String := none
  avRequirements : Option String := none
  briefDescription : Option String := none
  other : Option String := none
  attendees : Option (List RawAttendee) := none

/-- Per-character form of the reference substitution stated by the spec:
backslash becomes two backslashes, newline becomes the two characters
backslash n, semicolon and comma get a leading backslash, everything else
is unchanged. -/
def escapeRefChar (c : Char) : List Char :=
  if c = '\\' then ['\\', '\\']
  else if c = '\n' then ['\\', 'n']
  else if c = ';' then ['\\', ';']
  else if c = ',' then ['\\', ','] else [c]

/-- The reference substitution of the spec, applied over a whole string. -/
def specEscapeSubstitution (s : String) : String :=
  ⟨s.data.flatMap escapeRefChar⟩

/-- Decimal digit character for a digit below ten (embedding of the JS
number-to-string digits). -/
def decDigitChar (d : Nat) : Char :=
  match d with
  | 0 => '0' | 1 => '1' | 2 => '2' | 3 => '3' | 4 => '4'
  | 5 => '5' | 6 => '6' | 7 => '7' | 8 => '8' | _ => '9'

/-- Digit accumulator for the decimal rendering of a natural number; the
fuel argument bounds the loop and `n + 1` always suffices because the
value shrinks by a factor of ten each step. -/
def natDigitsAux (fuel n : Nat) (acc : List Char) : List Char :=
  match fuel with
  | 0 => acc
  | fuel + 1 =>
    if n < 10 then decDigitChar n :: acc
    else natDigitsAux fuel (n / 10) (decDigitChar (n % 10) :: acc)

/-- Embedding of the JS number-to-string conversion used by template
literals on nonnegative integers (`Date.now()`, the map index). -/
def natToString (n : Nat) : String :=
  ⟨natDigitsAux (n + 1) n []⟩

/-- Decimal value read back from a digit list, continuing from `a`. -/
def valFrom (a : Nat) (l : List Char) : Nat :=
  l.foldl (fun b c => b * 10 + (c.toNat - 48)) a

namespace A

/-- Variant A `escapeICSText` (lines 291-297): sequential global replaces,
backslash first, then newline, then semicolon, then comma. -/
def escapeICSText (text : String) : String :=
  jsReplaceAll ',' ['\\', ','] (jsReplaceAll ';' ['\\', ';']
    (jsReplaceAll '\n' ['\\', 'n'] (jsReplaceAll '\\' ['\\', '\\'] text)))

/-- Variant A `formatDateTimeICS` (lines 281-288): a global replace
removes every dash and colon, then `split` at the plus sign keeps the part
before the first plus sign, then `split` at `Z` keeps the part before the
first `Z`. -/
def formatDateTimeICS (dt : String) : String :=
  ⟨((dt.data.filter (fun c => !(c == '-' || c == ':'))).takeWhile
      (fun c => !(c == '+'))).takeWhile (fun c => !(c == 'Z'))⟩

/-- Variant A per-event UID (line 219):
`event-${Date.now()}-${index}@streamlink.stream`, with the clock value `t`
read at rendering time and `index` the position of the event. -/
def uid (t i : Nat) : String :=
  "event-" ++ natToString t ++ "-" ++ natToString i ++ "@streamlink.stream"

end A

namespace B

/-- Variant B `escapeICSText` (lines 478-484): sequential global replaces,
backslash first, then newline, then comma, then semicolon. -/
def escapeICSText (text : String) : String :=
  jsReplaceAll ';' ['\\', ';'] (jsReplaceAll ',' ['\\', ',']
    (jsReplaceAll '\n' ['\\', 'n'] (jsReplaceAll '\\' ['\\', '\\'] text)))

/-- Variant B `generateUID` (lines 487-489): the supplied
`crypto.randomUUID()` value with the fixed domain suffix. -/
def generateUID (uuid : String) : String :=
  uuid ++ "@hutchins.tas.edu.au"

/-- JS `Map.set` on a map kept as an insertion-ordered association list:
an existing key keeps its position and gets the new value, a fresh key is
appended at the end. -/
def mapSet (m : List (String × String)) (k v : String) :
    List (String × String) :=
  if m.any (fun p => p.1 == k) then
    m.map (fun p => if p.1 == k then (k, v) else p)
  else m ++ [(k, v)]

/-- One step of the explicit attendee loop (lines 550-556): an attendee is
inserted only when both its email and its name are truthy. -/
def attStep (m : List (String × String)) (att : RawAttendee) :
    List (String × String) :=
  if otruthy att.email && otruthy att.name then
    mapSet m (att.email.getD "") (att.name.getD "")
  else m

/-- The map built from the explicit attendee list of the event. -/
def explicitAttendees (atts : List RawAttendee) : List (String × String) :=
  atts.foldl attStep []

/-- Variant B attendee resolver (lines 547-560): explicit attendees are
inserted first (when the attendees field is an array), then every fixed
fallback attendee is inserted unconditionally via `Map.set`. -/
def resolveAttendees (attendees : Option (List RawAttendee)) :
    List (String × String) :=
  let m := match attendees with
    | some atts => explicitAttendees atts
    | none => []
  ATTENDEES.foldl (fun m a => mapSet m a.email a.name) m

/-- Variant B ATTENDEE line (lines 562-566), one per resolved entry. -/
def attendeeLine (email name : String) : String :=
  "ATTENDEE;CN=" ++ escapeICSText name ++
    ";RSVP=FALSE;PARTSTAT=NEEDS-ACTION;CUTYPE=INDIVIDUAL:mailto:" ++ email

/-- Variant B composite DESCRIPTION value (lines 534-543): the five
labelled parts joined by a newline, escaped as a whole. -/
def descriptionOf (e : EventRecord) : String :=
  escapeICSText (String.intercalate "\n"
    ["AV Support request location: " ++ jsOr e.avRequestLocation "",
     "AV Support requirements: " ++ jsOr e.avRequirements "",
     "Brief description: " ++ jsOr e.briefDescription "",
     "Other: " ++ jsOr e.other "",
     "Description: " ++ jsOr e.description ""])

/-- Variant B per-event lines (lines 517-576).  `fmt` is the Date based
UTC formatter `formatDateTimeToICS` (an environment function: it parses
via `new Date`), `uid` and `dtstamp` the values produced for this event. -/
def eventLines (fmt : String → String) (uid dtstamp : String)
    (e : EventRecord) : List String :=
  ["BEGIN:VEVENT", "UID:" ++ uid, "DTSTAMP:" ++ dtstamp]
    ++ (if otruthy e.start then ["DTSTART:" ++ fmt (e.start.getD "")] else [])
    ++ (if otruthy e.endTime then ["DTEND:" ++ fmt (e.endTime.getD "")] else [])
    ++ [if otruthy e.location then "LOCATION:" ++ escapeICSText (e.location.getD "")
        else "LOCATION:"]
    ++ ["DESCRIPTION:" ++ descriptionOf e]
    ++ ["SUMMARY:" ++ escapeICSText (jsOr e.title "No Title")]
    ++ (resolveAttendees e.attendees).map (fun p => attendeeLine p.1 p.2)
    ++ ["BEGIN:VALARM", "TRIGGER:-PT30M", "DESCRIPTION:Reminder",
        "ACTION:DISPLAY", "END:VALARM", "END:VEVENT"]

/-- Variant B calendar header lines (lines 508-515). -/
def headerLines : List String :=
  ["BEGIN:VCALENDAR", "VERSION:2.0", "PRODID:-//Hutchins LLM Chat Worker//EN",
   "CALSCALE:GREGORIAN"]

/-- The event loop of variant B `generateICS`, with the per-event UID and
DTSTAMP environment values indexed by position. -/
def eventsLinesGo (fmt : String → String) (uids stamps : Nat → String) :
    Nat → List EventRecord → List String
  | _, [] => []
  | i, e :: rest =>
      eventLines fmt (uids i) (stamps i) e
        ++ eventsLinesGo fmt uids stamps (i + 1) rest

/-- All lines of the variant B calendar document (lines 507-581). -/
def icsLines (fmt : String → String) (uids stamps : Nat → String)
    (events : List EventRecord) : List String :=
  headerLines ++ eventsLinesGo fmt uids stamps 0 events ++ ["END:VCALENDAR"]

/-- Variant B `generateICS`: the lines joined with CRLF. -/
def generateICS (fmt : String → String) (uids stamps : Nat → String)
    (events : List EventRecord) : String :=
  String.intercalate "\r\n" (icsLines fmt uids stamps events)

/-- Outcome of `JSON.parse` on the extraction text, as far as the email
handler inspects it: the parse threw, or produced a non-array value, or
produced an array of event records. -/
inductive ParseOutcome where
  | failure
  | nonArray
  | array (events : List EventRecord)

/-- The `events` variable after the try/catch of the email handler
(lines 426-432): a parse failure is caught and replaced by the empty
array; `none` stands for a parsed value that is not an array. -/
def parsedEvents : ParseOutcome → Option (List EventRecord)
  | .failure => some []
  | .nonArray => none
  | .array evs => some evs

/-- The send decision of the email handler (lines 434-448): when the
events value is not an array or is empty the handler returns with no
transport call; otherwise it sends the generated document.  `some ics`
means `sendEmailWithICS` is invoked with that document, `none` means no
transport call happens. -/
def emailAction (fmt : String → String) (uids stamps : Nat → String)
    (o : ParseOutcome) : Option String :=
  match parsedEvents o with
  | none => none
  | some evs =>
      if evs.length = 0 then none
      else some (generateICS fmt uids stamps evs)

end B

/-- JS template-literal interpolation of a possibly-undefined string field:
an undefined value is rendered as the text `undefined`. -/
def jsTemplate (o : Option String) : String :=
  match o with
  | some s => s
  | none => "undefined"

namespace A

/-- Variant A fixed VTIMEZONE block for Australia/Hobart (lines 198-215). -/
def timezoneBlock : String :=
  "BEGIN:VTIMEZONE\nTZID:Australia/Hobart\nX-LIC-LOCATION:Australia/Hobart\nBEGIN:STANDARD\nTZOFFSETFROM:+1100\nTZOFFSETTO:+1000\nTZNAME:AEST\nDTSTART:19700405T030000\nRRULE:FREQ=YEARLY;BYMONTH=4;BYDAY=1SU\nEND:STANDARD\nBEGIN:DAYLIGHT\nTZOFFSETFROM:+1000\nTZOFFSETTO:+1100\nTZNAME:AEDT\nDTSTART:19701004T020000\nRRULE:FREQ=YEARLY;BYMONTH=10;BYDAY=1SU\nEND:DAYLIGHT\nEND:VTIMEZONE"

/-- The shared ATTENDEE template of variant A (lines 240 and 246), for a
name that is known to be present. -/
def attendeeMid : String :=
  ";RSVP=TRUE;PARTSTAT=NEEDS-ACTION;ROLE=REQ-PARTICIPANT;CUTYPE=INDIVIDUAL;X-NUM-GUESTS=0;RSVP=FALSE;PARTSTAT=NEEDS-ACTION;X-ATTENDEE-OPTIONAL=TRUE:mailto:"

/-- Variant A ATTENDEE line for an explicit attendee (lines 237-242):
`escapeICSText(att.name)` throws a TypeError when the name is absent
(`none` result); an absent email is interpolated as the text `undefined`
by the template literal. -/
def attendeeLine (att : RawAttendee) : Option String :=
  match att.name with
  | none => none
  | some nm =>
    some ("ATTENDEE;CN=" ++ escapeICSText nm ++ attendeeMid ++ jsTemplate att.email)

/-- Variant A ATTENDEE line for a fixed fallback attendee (lines 244-247). -/
def fixedAttendeeLine (a : Attendee) : String :=
  "ATTENDEE;CN=" ++ escapeICSText a.name ++ attendeeMid ++ a.email

/-- The `event.attendees.map(...)` of variant A over the Option monad: the
whole map throws (returns `none`) as soon as one attendee line throws. -/
def seqAttendeeLines : List RawAttendee → Option (List String)
  | [] => some []
  | a :: t =>
    match attendeeLine a, seqAttendeeLines t with
    | some l, some ls => some (l :: ls)
    | _, _ => none

/-- Variant A attendee selection (lines 234-248): when the attendees field
is an array with at least one element, only the explicit attendee lines
are produced (no fallback, no deduplication, no filtering); otherwise the
fixed fallback attendee lines are used. -/
def attLinesOf : Option (List RawAttendee) → Option (List String)
  | some l =>
    if l.length > 0 then seqAttendeeLines l
    else some (ATTENDEES.map fixedAttendeeLine)
  | none => some (ATTENDEES.map fixedAttendeeLine)

/-- Variant A composite DESCRIPTION value (lines 226-232): the four
labelled parts, each escaped, joined by the literal two-character
backslash-n sequence. -/
def descriptionOf (e : EventRecord) : String :=
  String.intercalate "\\n"
    ["AV Support request location: " ++
        escapeICSText (jsOr e.avRequestLocation (jsOr e.location "")),
     "AV Support requirements: " ++ escapeICSText (jsOr e.avRequirements ""),
     "Brief description: " ++
        escapeICSText (jsOr e.briefDescription
          (jsOr e.description (jsOr e.title ""))),
     "Other: " ++ escapeICSText (jsOr e.other "")]

/-- Variant A per-event block (lines 218-264) as its list of lines: the
returned template literal split at its literal newlines, with the
attendee join inlined (the attendee list is never empty, so the joined
string is exactly these lines joined with LF — see `eventBlock`).  An
absent start or end field makes `formatDateTimeICS` throw (`none`); a
throwing attendee line propagates too. -/
def eventBlockLines (uid dtstamp : String) (e : EventRecord) :
    Option (List String) :=
  match e.start, e.endTime with
  | some s, some en =>
    match attLinesOf e.attendees with
    | some attLines =>
      some (["BEGIN:VEVENT", "UID:" ++ uid, "DTSTAMP:" ++ dtstamp,
             "SUMMARY:" ++ escapeICSText (jsOr e.title "No Title"),
             "DTSTART;TZID=Australia/Hobart:" ++ formatDateTimeICS s,
             "DTEND;TZID=Australia/Hobart:" ++ formatDateTimeICS en,
             "LOCATION:" ++ escapeICSText (jsOr e.location ""),
             "DESCRIPTION:" ++ descriptionOf e]
        ++ attLines
        ++ ["BEGIN:VALARM", "TRIGGER:-PT30M", "ACTION:DISPLAY",
            "DESCRIPTION:Reminder", "END:VALARM", "END:VEVENT"])
    | none => none
  | _, _ => none

/-- Variant A per-event block as the returned string. -/
def eventBlock (uid dtstamp : String) (e : EventRecord) : Option String :=
  (eventBlockLines uid dtstamp e).map (String.intercalate "\n")

/-- The `events.map((event, index) => ...)` loop of variant A, with the
per-event `Date.now()` clock values supplied by `times`; a throw in any
block aborts the whole map. -/
def icsBlocksGo (times : Nat → Nat) (dtstamp : String) :
    Nat → List EventRecord → Option (List (List String))
  | _, [] => some []
  | i, e :: rest =>
    match eventBlockLines (uid (times i) i) dtstamp e,
        icsBlocksGo times dtstamp (i + 1) rest with
    | some b, some bs => some (b :: bs)
    | _, _ => none

/-- Variant A `generateICS` (lines 194-278): header, timezone block, the
event blocks joined with LF, footer; `none` when any event block threw
(the email handler catches that TypeError, aborting the whole run with no
send). -/
def generateICS (times : Nat → Nat) (dtstamp : String)
    (events : List EventRecord) : Option String :=
  (icsBlocksGo times dtstamp 0 events).map (fun blocks =>
    "BEGIN:VCALENDAR\nVERSION:2.0\nPRODID:-//Streamlink//LLM AV Calendar//EN\nCALSCALE:GREGORIAN\nMETHOD:PUBLISH\n"
      ++ timezoneBlock ++ "\n"
      ++ String.intercalate "\n" (blocks.map (String.intercalate "\n"))
      ++ "\nEND:VCALENDAR")

end A

/-! Helper lemmas. -/

theorem countEq_append (a : String) (l1 l2 : List String) :
    countEq a (l1 ++ l2) = countEq a l1 + countEq a l2 := by
  induction l1 with
  | nil => simp [countEq]
  | cons b t ih => simp [countEq, ih]; omega

theorem jsOr_falsy (o : Option String) (d : String) (h : otruthy o = false) :
    jsOr o d = d := by
  cases o with
  | none => rfl
  | some s =>
    cases hse : s.isEmpty with
    | true => simp [jsOr, hse]
    | false => simp [otruthy, hse] at h

theorem countEq_attBEGIN (l : List (String × String)) :
    countEq "BEGIN:VEVENT" (l.map fun p => B.attendeeLine p.1 p.2) = 0 := by
  induction l with
  | nil => rfl
  | cons p t ih =>
    show (if B.attendeeLine p.1 p.2 = "BEGIN:VEVENT" then 1 else 0) +
        countEq "BEGIN:VEVENT" (t.map fun p => B.attendeeLine p.1 p.2) = 0
    rw [ih]
    rfl

theorem countEq_attEND (l : List (String × String)) :
    countEq "END:VEVENT" (l.map fun p => B.attendeeLine p.1 p.2) = 0 := by
  induction l with
  | nil => rfl
  | cons p t ih =>
    show (if B.attendeeLine p.1 p.2 = "END:VEVENT" then 1 else 0) +
        countEq "END:VEVENT" (t.map fun p => B.attendeeLine p.1 p.2) = 0
    rw [ih]
    rfl

theorem filter_attS (l : List (String × String)) :
    (l.map fun p => B.attendeeLine p.1 p.2).filter
      (fun s => s.data.head? == some 'S') = [] := by
  induction l with
  | nil => rfl
  | cons p t ih =>
    rw [List.map_cons, List.filter_cons]
    have hc : (((B.attendeeLine p.1 p.2).data.head? == some 'S') = true) = False := by
      simp only [show ((B.attendeeLine p.1 p.2).data.head? == some 'S') = false from rfl]
      simp
    rw [if_neg (by simp [hc]), ih]

/-! Claim theorems for the email handler control flow and the date bug. -/

/-- Claim C2: for an extraction text that does not decode to a JSON array
(the parse threw, or the parsed value is not an array), the email handler
performs no transport call: `emailAction` is `none` in both cases, and
being a total function it cannot crash.  `ParseOutcome.failure` covers
every text on which `JSON.parse` throws, `ParseOutcome.nonArray` every
text that parses to a non-array value. -/
theorem c2_bad_parse_no_send (fmt : String → String)
    (uids stamps : Nat → String) :
    B.emailAction fmt uids stamps .failure = none ∧
    B.emailAction fmt uids stamps .nonArray = none :=
  ⟨rfl, rfl⟩

/-- Claim C8: an extraction text that parses to the empty array also
produces no transport call, and the send decision is literally the same as
for a parse failure, so an observer of the send capability cannot
distinguish the two. -/
theorem c8_empty_batch_silent (fmt : String → String)
    (uids stamps : Nat → String) :
    B.emailAction fmt uids stamps (.array []) = none ∧
    B.emailAction fmt uids stamps (.array []) =
      B.emailAction fmt uids stamps .failure :=
  ⟨rfl, rfl⟩

/-- Claim C5, divergence witness: the formatter strips a trailing `Z` and
a `+HH:MM` offset, but on a `-HH:MM` offset the dashes are removed first,
so the offset digits are appended to the wall-clock digits instead of
being stripped: the claimed output would be `20250630T080000`. -/
theorem c5_negative_offset_not_stripped :
    A.formatDateTimeICS "2025-06-30T08:00:00-05:00" = "20250630T0800000500" ∧
    A.formatDateTimeICS "2025-06-30T08:00:00+10:00" = "20250630T080000" ∧
    A.formatDateTimeICS "2025-06-30T08:00:00Z" = "20250630T080000" :=
  ⟨rfl, rfl, rfl⟩

/-- Claim C10: whenever the title field is falsy (absent or the empty
string), the rendered block carries the line `SUMMARY:No Title`. -/
theorem c10_falsy_title_default (fmt : String → String) (u st : String)
    (e : EventRecord) (h : otruthy e.title = false) :
    "SUMMARY:No Title" ∈ B.eventLines fmt u st e := by
  unfold B.eventLines
  rw [jsOr_falsy _ _ h,
    show B.escapeICSText "No Title" = "No Title" from rfl,
    show ("SUMMARY:" ++ "No Title" : String) = "SUMMARY:No Title" from rfl]
  simp [List.mem_append]

/-- Witness for C10 at a concrete record whose title is the empty
string. -/
theorem c10_witness :
    "SUMMARY:No Title" ∈
      B.eventLines (fun _ => "") "u" "s" { title := some "" } :=
  c10_falsy_title_default (fun _ => "") "u" "s" { title := some "" } rfl

theorem eventLines_countBEGIN (fmt : String → String) (u st : String)
    (e : EventRecord) :
    countEq "BEGIN:VEVENT" (B.eventLines fmt u st e) = 1 := by
  unfold B.eventLines
  repeat rw [countEq_append]
  rw [countEq_attBEGIN,
    show countEq "BEGIN:VEVENT"
        (if otruthy e.start then ["DTSTART:" ++ fmt (e.start.getD "")] else []) = 0
      from by split <;> rfl,
    show countEq "BEGIN:VEVENT"
        (if otruthy e.endTime then ["DTEND:" ++ fmt (e.endTime.getD "")] else []) = 0
      from by split <;> rfl,
    show countEq "BEGIN:VEVENT"
        [if otruthy e.location then "LOCATION:" ++ B.escapeICSText (e.location.getD "")
         else "LOCATION:"] = 0
      from by split <;> rfl]
  rfl

theorem eventLines_countEND (fmt : String → String) (u st : String)
    (e : EventRecord) :
    countEq "END:VEVENT" (B.eventLines fmt u st e) = 1 := by
  unfold B.eventLines
  repeat rw [countEq_append]
  rw [countEq_attEND,
    show countEq "END:VEVENT"
        (if otruthy e.start then ["DTSTART:" ++ fmt (e.start.getD "")] else []) = 0
      from by split <;> rfl,
    show countEq "END:VEVENT"
        (if otruthy e.endTime then ["DTEND:" ++ fmt (e.endTime.getD "")] else []) = 0
      from by split <;> rfl,
    show countEq "END:VEVENT"
        [if otruthy e.location then "LOCATION:" ++ B.escapeICSText (e.location.getD "")
         else "LOCATION:"] = 0
      from by split <;> rfl]
  rfl

theorem eventLines_filterS (fmt : String → String) (u st : String)
    (e : EventRecord) :
    (B.eventLines fmt u st e).filter (fun s => s.data.head? == some 'S') =
      ["SUMMARY:" ++ B.escapeICSText (jsOr e.title "No Title")] := by
  unfold B.eventLines
  repeat rw [List.filter_append]
  rw [filter_attS,
    show (if otruthy e.start then ["DTSTART:" ++ fmt (e.start.getD "")] else []).filter
        (fun s => s.data.head? == some 'S') = [] from by split <;> rfl,
    show (if otruthy e.endTime then ["DTEND:" ++ fmt (e.endTime.getD "")] else []).filter
        (fun s => s.data.head? == some 'S') = [] from by split <;> rfl,
    show ([if otruthy e.location then "LOCATION:" ++ B.escapeICSText (e.location.getD "")
           else "LOCATION:"]).filter (fun s => s.data.head? == some 'S') = [] from by
      split <;> rfl]
  rfl

theorem eventsLinesGo_countBEGIN (fmt : String → String)
    (uids stamps : Nat → String) :
    ∀ (evs : List EventRecord) (i : Nat),
      countEq "BEGIN:VEVENT" (B.eventsLinesGo fmt uids stamps i evs) =
        evs.length := by
  intro evs
  induction evs with
  | nil => intro i; rfl
  | cons e t ih =>
    intro i
    simp only [B.eventsLinesGo, countEq_append, eventLines_countBEGIN, ih,
      List.length_cons]
    omega

theorem eventsLinesGo_countEND (fmt : String → String)
    (uids stamps : Nat → String) :
    ∀ (evs : List EventRecord) (i : Nat),
      countEq "END:VEVENT" (B.eventsLinesGo fmt uids stamps i evs) =
        evs.length := by
  intro evs
  induction evs with
  | nil => intro i; rfl
  | cons e t ih =>
    intro i
    simp only [B.eventsLinesGo, countEq_append, eventLines_countEND, ih,
      List.length_cons]
    omega

theorem eventsLinesGo_filterS (fmt : String → String)
    (uids stamps : Nat → String) :
    ∀ (evs : List EventRecord) (i : Nat),
      (B.eventsLinesGo fmt uids stamps i evs).filter
          (fun s => s.data.head? == some 'S') =
        evs.map (fun e => "SUMMARY:" ++ B.escapeICSText (jsOr e.title "No Title")) := by
  intro evs
  induction evs with
  | nil => intro i; rfl
  | cons e t ih =>
    intro i
    simp only [B.eventsLinesGo, List.filter_append, eventLines_filterS, ih,
      List.map_cons, List.singleton_append]

theorem attLineA_headS (nm : String) (em : Option String) :
    ((("ATTENDEE;CN=" ++ A.escapeICSText nm ++ A.attendeeMid ++ jsTemplate em).data.head?
      == some 'S')) = false := rfl

theorem seqAtt_props :
    ∀ (l : List RawAttendee) (al : List String),
      A.seqAttendeeLines l = some al →
        countEq "BEGIN:VEVENT" al = 0 ∧ countEq "END:VEVENT" al = 0 ∧
        al.filter (fun s => s.data.head? == some 'S') = [] ∧
        al.length = l.length := by
  intro l
  induction l with
  | nil =>
    intro al h
    obtain rfl : ([] : List String) = al := by
      simpa [A.seqAttendeeLines] using h
    exact ⟨rfl, rfl, rfl, rfl⟩
  | cons a t ih =>
    intro al h
    cases hn : a.name with
    | none =>
      simp only [A.seqAttendeeLines, A.attendeeLine, hn] at h
      exact Option.noConfusion h
    | some nm =>
      cases ht : A.seqAttendeeLines t with
      | none =>
        simp only [A.seqAttendeeLines, A.attendeeLine, hn, ht] at h
        exact Option.noConfusion h
      | some ts =>
        simp only [A.seqAttendeeLines, A.attendeeLine, hn, ht] at h
        injection h with h
        subst h
        obtain ⟨h1, h2, h3, h4⟩ := ih ts ht
        refine ⟨?_, ?_, ?_, ?_⟩
        · show (if ("ATTENDEE;CN=" ++ A.escapeICSText nm ++ A.attendeeMid ++
              jsTemplate a.email) = "BEGIN:VEVENT" then 1 else 0) +
              countEq "BEGIN:VEVENT" ts = 0
          rw [h1]
          rfl
        · show (if ("ATTENDEE;CN=" ++ A.escapeICSText nm ++ A.attendeeMid ++
              jsTemplate a.email) = "END:VEVENT" then 1 else 0) +
              countEq "END:VEVENT" ts = 0
          rw [h2]
          rfl
        · rw [List.filter_cons, if_neg (by simp [attLineA_headS]), h3]
        · simp [h4]

theorem attLinesOf_props (atts : Option (List RawAttendee)) (al : List String)
    (h : A.attLinesOf atts = some al) :
    countEq "BEGIN:VEVENT" al = 0 ∧ countEq "END:VEVENT" al = 0 ∧
    al.filter (fun s => s.data.head? == some 'S') = [] := by
  cases atts with
  | none =>
    obtain rfl : ATTENDEES.map A.fixedAttendeeLine = al := by
      simpa [A.attLinesOf] using h
    exact ⟨rfl, rfl, rfl⟩
  | some l =>
    rw [A.attLinesOf] at h
    split at h
    · obtain ⟨h1, h2, h3, -⟩ := seqAtt_props l al h
      exact ⟨h1, h2, h3⟩
    · obtain rfl : ATTENDEES.map A.fixedAttendeeLine = al := by simpa using h
      exact ⟨rfl, rfl, rfl⟩

theorem eventBlockLines_props (uid dtstamp : String) (e : EventRecord)
    (bl : List String) (h : A.eventBlockLines uid dtstamp e = some bl) :
    countEq "BEGIN:VEVENT" bl = 1 ∧ countEq "END:VEVENT" bl = 1 ∧
    bl.filter (fun s => s.data.head? == some 'S') =
      ["SUMMARY:" ++ A.escapeICSText (jsOr e.title "No Title")] := by
  rw [A.eventBlockLines] at h
  split at h
  · split at h
    · next attLines hat =>
      injection h with h
      subst h
      obtain ⟨a1, a2, a3⟩ := attLinesOf_props _ _ hat
      refine ⟨?_, ?_, ?_⟩
      · rw [countEq_append, countEq_append, a1]
        rfl
      · rw [countEq_append, countEq_append, a2]
        rfl
      · rw [List.filter_append, List.filter_append, a3]
        rfl
    · simp at h
  · simp at h

theorem icsBlocksGo_props (times : Nat → Nat) (dtstamp : String) :
    ∀ (evs : List EventRecord) (i : Nat) (bs : List (List String)),
      A.icsBlocksGo times dtstamp i evs = some bs →
        bs.length = evs.length ∧
        countEq "BEGIN:VEVENT" bs.flatten = evs.length ∧
        countEq "END:VEVENT" bs.flatten = evs.length ∧
        bs.flatten.filter (fun s => s.data.head? == some 'S') =
          evs.map (fun e => "SUMMARY:" ++ A.escapeICSText (jsOr e.title "No Title")) := by
  intro evs
  induction evs with
  | nil =>
    intro i bs h
    obtain rfl : ([] : List (List String)) = bs := by
      simpa [A.icsBlocksGo] using h
    exact ⟨rfl, rfl, rfl, rfl⟩
  | cons e t ih =>
    intro i bs h
    rw [A.icsBlocksGo] at h
    cases hb : A.eventBlockLines (A.uid (times i) i) dtstamp e with
    | none => rw [hb] at h; simp at h
    | some b =>
      cases hr : A.icsBlocksGo times dtstamp (i + 1) t with
      | none => rw [hb, hr] at h; simp at h
      | some bs2 =>
        rw [hb, hr] at h
        injection h with h
        subst h
        obtain ⟨l1, cB, cE, f1⟩ := ih (i + 1) bs2 hr
        obtain ⟨eb1, eb2, ef⟩ := eventBlockLines_props _ _ _ _ hb
        refine ⟨by simp [l1], ?_, ?_, ?_⟩
        · rw [List.flatten_cons, countEq_append, eb1, cB, List.length_cons]
          omega
        · rw [List.flatten_cons, countEq_append, eb2, cE, List.length_cons]
          omega
        · rw [List.flatten_cons, List.filter_append, ef, f1, List.map_cons,
            List.singleton_append]

/-- Claim C1: in both variants, a batch of N records yields exactly N
event blocks in input order.  Variant B: the document lines contain
exactly one `BEGIN:VEVENT` and one `END:VEVENT` line per input record, and
the sequence of SUMMARY lines (the lines whose first character is `S`; no
other emitted line starts with `S`) equals the input records mapped to
their summaries in input order.  Variant A: whenever the
`events.map((event, index) => ...)` of `generateICS` completes (producing
the block list that the document joins with LF), it produces one block per
record, with the same counting and ordering properties over the flattened
lines.  So no record is reordered, merged or deduplicated; this holds for
every input list, in particular every non-empty one. -/
theorem c1_blocks_per_record (fmt : String → String)
    (uids stamps : Nat → String) (times : Nat → Nat) (dtstamp : String)
    (evs : List EventRecord) :
    countEq "BEGIN:VEVENT" (B.icsLines fmt uids stamps evs) = evs.length ∧
    countEq "END:VEVENT" (B.icsLines fmt uids stamps evs) = evs.length ∧
    (B.icsLines fmt uids stamps evs).filter (fun s => s.data.head? == some 'S') =
      evs.map (fun e => "SUMMARY:" ++ B.escapeICSText (jsOr e.title "No Title")) ∧
    ∀ bs : List (List String), A.icsBlocksGo times dtstamp 0 evs = some bs →
      bs.length = evs.length ∧
      countEq "BEGIN:VEVENT" bs.flatten = evs.length ∧
      countEq "END:VEVENT" bs.flatten = evs.length ∧
      bs.flatten.filter (fun s => s.data.head? == some 'S') =
        evs.map (fun e => "SUMMARY:" ++ A.escapeICSText (jsOr e.title "No Title")) := by
  refine ⟨?_, ?_, ?_, fun bs h => icsBlocksGo_props times dtstamp evs 0 bs h⟩ <;>
    unfold B.icsLines
  · rw [countEq_append, countEq_append, eventsLinesGo_countBEGIN,
      show countEq "BEGIN:VEVENT" B.headerLines = 0 from rfl,
      show countEq "BEGIN:VEVENT" ["END:VCALENDAR"] = 0 from rfl]
    omega
  · rw [countEq_append, countEq_append, eventsLinesGo_countEND,
      show countEq "END:VEVENT" B.headerLines = 0 from rfl,
      show countEq "END:VEVENT" ["END:VCALENDAR"] = 0 from rfl]
    omega
  · rw [List.filter_append, List.filter_append, eventsLinesGo_filterS,
      show B.headerLines.filter (fun s => s.data.head? == some 'S') = [] from rfl,
      show (["END:VCALENDAR"] : List String).filter
        (fun s => s.data.head? == some 'S') = [] from rfl]
    simp

set_option maxRecDepth 16384 in
/-- Witness for the variant A part of C1 at a concrete one-event batch. -/
theorem c1_witness :
    ([["BEGIN:VEVENT", "UID:event-5-0@streamlink.stream", "DTSTAMP:D",
       "SUMMARY:T", "DTSTART;TZID=Australia/Hobart:S1",
       "DTEND;TZID=Australia/Hobart:E1", "LOCATION:",
       "DESCRIPTION:AV Support request location: \\nAV Support requirements: \\nBrief description: T\\nOther: ",
       "ATTENDEE;CN=Storm Ellis;RSVP=TRUE;PARTSTAT=NEEDS-ACTION;ROLE=REQ-PARTICIPANT;CUTYPE=INDIVIDUAL;X-NUM-GUESTS=0;RSVP=FALSE;PARTSTAT=NEEDS-ACTION;X-ATTENDEE-OPTIONAL=TRUE:mailto:storm.ellis@hutchins.tas.edu.au",
       "BEGIN:VALARM", "TRIGGER:-PT30M", "ACTION:DISPLAY",
       "DESCRIPTION:Reminder", "END:VALARM", "END:VEVENT"]] :
      List (List String)).length = 1 ∧
    countEq "BEGIN:VEVENT"
      ([["BEGIN:VEVENT", "UID:event-5-0@streamlink.stream", "DTSTAMP:D",
         "SUMMARY:T", "DTSTART;TZID=Australia/Hobart:S1",
         "DTEND;TZID=Australia/Hobart:E1", "LOCATION:",
         "DESCRIPTION:AV Support request location: \\nAV Support requirements: \\nBrief description: T\\nOther: ",
         "ATTENDEE;CN=Storm Ellis;RSVP=TRUE;PARTSTAT=NEEDS-ACTION;ROLE=REQ-PARTICIPANT;CUTYPE=INDIVIDUAL;X-NUM-GUESTS=0;RSVP=FALSE;PARTSTAT=NEEDS-ACTION;X-ATTENDEE-OPTIONAL=TRUE:mailto:storm.ellis@hutchins.tas.edu.au",
         "BEGIN:VALARM", "TRIGGER:-PT30M", "ACTION:DISPLAY",
         "DESCRIPTION:Reminder", "END:VALARM", "END:VEVENT"]] :
        List (List String)).flatten = 1 ∧
    countEq "END:VEVENT"
      ([["BEGIN:VEVENT", "UID:event-5-0@streamlink.stream", "DTSTAMP:D",
         "SUMMARY:T", "DTSTART;TZID=Australia/Hobart:S1",
         "DTEND;TZID=Australia/Hobart:E1", "LOCATION:",
         "DESCRIPTION:AV Support request location: \\nAV Support requirements: \\nBrief description: T\\nOther: ",
         "ATTENDEE;CN=Storm Ellis;RSVP=TRUE;PARTSTAT=NEEDS-ACTION;ROLE=REQ-PARTICIPANT;CUTYPE=INDIVIDUAL;X-NUM-GUESTS=0;RSVP=FALSE;PARTSTAT=NEEDS-ACTION;X-ATTENDEE-OPTIONAL=TRUE:mailto:storm.ellis@hutchins.tas.edu.au",
         "BEGIN:VALARM", "TRIGGER:-PT30M", "ACTION:DISPLAY",
         "DESCRIPTION:Reminder", "END:VALARM", "END:VEVENT"]] :
        List (List String)).flatten = 1 ∧
    (([["BEGIN:VEVENT", "UID:event-5-0@streamlink.stream", "DTSTAMP:D",
        "SUMMARY:T", "DTSTART;TZID=Australia/Hobart:S1",
        "DTEND;TZID=Australia/Hobart:E1", "LOCATION:",
        "DESCRIPTION:AV Support request location: \\nAV Support requirements: \\nBrief description: T\\nOther: ",
        "ATTENDEE;CN=Storm Ellis;RSVP=TRUE;PARTSTAT=NEEDS-ACTION;ROLE=REQ-PARTICIPANT;CUTYPE=INDIVIDUAL;X-NUM-GUESTS=0;RSVP=FALSE;PARTSTAT=NEEDS-ACTION;X-ATTENDEE-OPTIONAL=TRUE:mailto:storm.ellis@hutchins.tas.edu.au",
        "BEGIN:VALARM", "TRIGGER:-PT30M", "ACTION:DISPLAY",
        "DESCRIPTION:Reminder", "END:VALARM", "END:VEVENT"]] :
       List (List String)).flatten.filter (fun s => s.data.head? == some 'S')) =
      ["SUMMARY:T"] :=
  (c1_blocks_per_record (fun _ => "X") (fun _ => "u") (fun _ => "d")
      (fun _ => 5) "D"
      [({ title := some "T", start := some "S1", endTime := some "E1" } :
        EventRecord)]).2.2.2
    [["BEGIN:VEVENT", "UID:event-5-0@streamlink.stream", "DTSTAMP:D",
      "SUMMARY:T", "DTSTART;TZID=Australia/Hobart:S1",
      "DTEND;TZID=Australia/Hobart:E1", "LOCATION:",
      "DESCRIPTION:AV Support request location: \\nAV Support requirements: \\nBrief description: T\\nOther: ",
      "ATTENDEE;CN=Storm Ellis;RSVP=TRUE;PARTSTAT=NEEDS-ACTION;ROLE=REQ-PARTICIPANT;CUTYPE=INDIVIDUAL;X-NUM-GUESTS=0;RSVP=FALSE;PARTSTAT=NEEDS-ACTION;X-ATTENDEE-OPTIONAL=TRUE:mailto:storm.ellis@hutchins.tas.edu.au",
      "BEGIN:VALARM", "TRIGGER:-PT30M", "ACTION:DISPLAY",
      "DESCRIPTION:Reminder", "END:VALARM", "END:VEVENT"]] (by decide)

theorem keys_overwrite (m : List (String × String)) (k v : String) :
    (m.map (fun p => if p.1 == k then (k, v) else p)).map Prod.fst =
      m.map Prod.fst := by
  induction m with
  | nil => rfl
  | cons p t ih =>
    simp only [List.map_cons, ih]
    by_cases hpk : p.1 == k
    · simp only [hpk, if_true]
      have : p.1 = k := by simpa using hpk
      simp [this]
    · simp [hpk]

theorem keys_mapSet (m : List (String × String)) (k v : String) :
    (B.mapSet m k v).map Prod.fst =
      if m.any (fun p => p.1 == k) then m.map Prod.fst
      else m.map Prod.fst ++ [k] := by
  unfold B.mapSet
  split
  · exact keys_overwrite m k v
  · simp

theorem any_key_iff (m : List (String × String)) (k : String) :
    m.any (fun p => p.1 == k) = true ↔ k ∈ m.map Prod.fst := by
  simp only [List.any_eq_true, beq_iff_eq, List.mem_map]

theorem nodup_keys_mapSet (m : List (String × String)) (k v : String)
    (h : (m.map Prod.fst).Nodup) : ((B.mapSet m k v).map Prod.fst).Nodup := by
  rw [keys_mapSet]
  split
  · exact h
  · next hany =>
    have hk : k ∉ m.map Prod.fst := by
      intro hc
      exact hany ((any_key_iff m k).mpr hc)
    simp only [List.nodup_append, List.nodup_cons, List.not_mem_nil,
      not_false_iff, List.nodup_nil, and_true, true_and]
    refine ⟨h, ?_⟩
    intro x hx hx1
    simp only [List.mem_singleton] at hx1
    exact hk (hx1 ▸ hx)

theorem mem_mapSet (m : List (String × String)) (k v : String) :
    (k, v) ∈ B.mapSet m k v := by
  unfold B.mapSet
  split
  · next hany =>
    rw [List.any_eq_true] at hany
    obtain ⟨p, hp, hpk⟩ := hany
    exact List.mem_map.mpr ⟨p, hp, by simp [hpk]⟩
  · simp

theorem nodup_keys_foldl (atts : List RawAttendee) :
    ∀ m : List (String × String), (m.map Prod.fst).Nodup →
      ((atts.foldl B.attStep m).map Prod.fst).Nodup := by
  induction atts with
  | nil => intro m h; exact h
  | cons a t ih =>
    intro m h
    rw [List.foldl_cons]
    apply ih
    unfold B.attStep
    split
    · exact nodup_keys_mapSet _ _ _ h
    · exact h

set_option maxRecDepth 16384 in
/-- Counterexample to claim C3 as stated.  Variant B: an explicit attendee
whose email equals the fallback email keeps the email only once but the
retained name is the fallback name, not the explicit one; and an explicit
attendee whose email differs from the fallback email only in letter case
yields two entries, so the key is the exact email, not its lower-casing.
Variant A: a non-empty explicit attendee list yields only its own lines —
the fallback attendee, which the claimed merge would always include, is
absent entirely. -/
theorem c3_counterexample :
    ("storm.ellis@hutchins.tas.edu.au", "Stormy") ∉
      B.resolveAttendees
        (some [⟨some "Stormy", some "storm.ellis@hutchins.tas.edu.au"⟩]) ∧
    B.resolveAttendees
        (some [⟨some "Stormy", some "storm.ellis@hutchins.tas.edu.au"⟩]) =
      [("storm.ellis@hutchins.tas.edu.au", "Storm Ellis")] ∧
    (B.resolveAttendees
        (some [⟨some "X", some "STORM.ELLIS@HUTCHINS.TAS.EDU.AU"⟩])).length = 2 ∧
    A.attLinesOf (some [⟨some "N", some "n@x.com"⟩]) =
      some ["ATTENDEE;CN=N;RSVP=TRUE;PARTSTAT=NEEDS-ACTION;ROLE=REQ-PARTICIPANT;CUTYPE=INDIVIDUAL;X-NUM-GUESTS=0;RSVP=FALSE;PARTSTAT=NEEDS-ACTION;X-ATTENDEE-OPTIONAL=TRUE:mailto:n@x.com"] := by
  decide

/-- Claim C3, amended, per variant.  Map-based resolver (variant B):
explicit attendees (those with truthy name and email) are inserted first,
keyed by the exact, case-sensitive email; then every fallback attendee is
inserted unconditionally, overwriting the name stored at an existing email
key while keeping its position, or appended as a fresh entry otherwise.
Hence the resolved keys are pairwise distinct, the fallback entry always
carries the fallback name, and the resolved key sequence is the explicit
keys followed by the fallback email exactly when that email is not already
an explicit key.  Template resolver (variant A): a non-empty explicit
attendee list is rendered one line per listed attendee with no
deduplication and with the fallback suppressed entirely; the fixed
fallback lines are used exactly when the attendees field is absent or an
empty array. -/
theorem c3_attendee_merge_amended (expl : List RawAttendee) :
    ((B.resolveAttendees (some expl)).map Prod.fst).Nodup ∧
    ("storm.ellis@hutchins.tas.edu.au", "Storm Ellis") ∈
      B.resolveAttendees (some expl) ∧
    (B.resolveAttendees (some expl)).map Prod.fst =
      (if "storm.ellis@hutchins.tas.edu.au" ∈
          (B.explicitAttendees expl).map Prod.fst
       then (B.explicitAttendees expl).map Prod.fst
       else (B.explicitAttendees expl).map Prod.fst ++
          ["storm.ellis@hutchins.tas.edu.au"]) ∧
    (∀ (l : List RawAttendee) (al : List String),
        A.seqAttendeeLines l = some al → al.length = l.length) ∧
    (∀ l : List RawAttendee, 0 < l.length →
        A.attLinesOf (some l) = A.seqAttendeeLines l) ∧
    A.attLinesOf none = some (ATTENDEES.map A.fixedAttendeeLine) ∧
    A.attLinesOf (some []) = some (ATTENDEES.map A.fixedAttendeeLine) := by
  have hres : B.resolveAttendees (some expl) =
      B.mapSet (B.explicitAttendees expl)
        "storm.ellis@hutchins.tas.edu.au" "Storm Ellis" := rfl
  refine ⟨?_, ?_, ?_, ?_, ?_, rfl, rfl⟩
  · rw [hres]
    exact nodup_keys_mapSet _ _ _ (nodup_keys_foldl expl [] (by simp))
  · rw [hres]
    exact mem_mapSet _ _ _
  · rw [hres, keys_mapSet]
    by_cases hmem : "storm.ellis@hutchins.tas.edu.au" ∈
        (B.explicitAttendees expl).map Prod.fst
    · rw [if_pos ((any_key_iff _ _).mpr hmem), if_pos hmem]
    · rw [if_neg (fun hc => hmem ((any_key_iff _ _).mp hc)), if_neg hmem]
  · intro l al hl
    exact (seqAtt_props l al hl).2.2.2
  · intro l hl
    rw [A.attLinesOf, if_pos hl]

set_option maxRecDepth 16384 in
/-- Witness for the amended C3: the empty explicit list for the variant B
parts, and a one-attendee list for the variant A parts. -/
theorem c3_witness :
    ((B.resolveAttendees (some [])).map Prod.fst).Nodup ∧
    ("storm.ellis@hutchins.tas.edu.au", "Storm Ellis") ∈
      B.resolveAttendees (some []) ∧
    (B.resolveAttendees (some [])).map Prod.fst =
      (if "storm.ellis@hutchins.tas.edu.au" ∈
          (B.explicitAttendees []).map Prod.fst
       then (B.explicitAttendees []).map Prod.fst
       else (B.explicitAttendees []).map Prod.fst ++
          ["storm.ellis@hutchins.tas.edu.au"]) ∧
    (["ATTENDEE;CN=N;RSVP=TRUE;PARTSTAT=NEEDS-ACTION;ROLE=REQ-PARTICIPANT;CUTYPE=INDIVIDUAL;X-NUM-GUESTS=0;RSVP=FALSE;PARTSTAT=NEEDS-ACTION;X-ATTENDEE-OPTIONAL=TRUE:mailto:n@x.com"] :
      List String).length = 1 ∧
    A.attLinesOf (some [⟨some "N", some "n@x.com"⟩]) =
      A.seqAttendeeLines [⟨some "N", some "n@x.com"⟩] ∧
    A.attLinesOf none = some (ATTENDEES.map A.fixedAttendeeLine) ∧
    A.attLinesOf (some []) = some (ATTENDEES.map A.fixedAttendeeLine) :=
  ⟨(c3_attendee_merge_amended []).1,
   (c3_attendee_merge_amended []).2.1,
   (c3_attendee_merge_amended []).2.2.1,
   (c3_attendee_merge_amended []).2.2.2.1 [⟨some "N", some "n@x.com"⟩]
     ["ATTENDEE;CN=N;RSVP=TRUE;PARTSTAT=NEEDS-ACTION;ROLE=REQ-PARTICIPANT;CUTYPE=INDIVIDUAL;X-NUM-GUESTS=0;RSVP=FALSE;PARTSTAT=NEEDS-ACTION;X-ATTENDEE-OPTIONAL=TRUE:mailto:n@x.com"]
     (by decide),
   (c3_attendee_merge_amended []).2.2.2.2.1 [⟨some "N", some "n@x.com"⟩]
     (by decide),
   (c3_attendee_merge_amended []).2.2.2.2.2.1,
   (c3_attendee_merge_amended []).2.2.2.2.2.2⟩

/-- Claim C9: an explicit attendee record lacking a truthy (non-empty)
name or email contributes nothing to the attendee map, while every
fallback attendee is present in the resolved list no matter what the
explicit attendee field held. -/
theorem c9_attendee_filtering (m : List (String × String)) (att : RawAttendee)
    (expl : Option (List RawAttendee))
    (h : otruthy att.email = false ∨ otruthy att.name = false) :
    B.attStep m att = m ∧
    ∀ a ∈ ATTENDEES, (a.email, a.name) ∈ B.resolveAttendees expl := by
  constructor
  · unfold B.attStep
    rcases h with h | h <;> rw [h] <;> simp
  · intro a ha
    have haeq : a = ⟨"Storm Ellis", "storm.ellis@hutchins.tas.edu.au"⟩ := by
      simpa [ATTENDEES] using ha
    subst haeq
    show ("storm.ellis@hutchins.tas.edu.au", "Storm Ellis") ∈
      B.resolveAttendees expl
    cases expl with
    | none =>
      exact mem_mapSet [] "storm.ellis@hutchins.tas.edu.au" "Storm Ellis"
    | some atts =>
      exact mem_mapSet (B.explicitAttendees atts)
        "storm.ellis@hutchins.tas.edu.au" "Storm Ellis"

/-- Witness for C9: an attendee with an empty email is dropped, and the
fallback attendee is present with no explicit list at all. -/
theorem c9_witness :
    B.attStep [] ⟨some "Name", some ""⟩ = [] ∧
    ∀ a ∈ ATTENDEES, (a.email, a.name) ∈ B.resolveAttendees none :=
  c9_attendee_filtering [] ⟨some "Name", some ""⟩ none (Or.inl (by decide))

theorem escape_chain_A (l : List Char) :
    (((l.flatMap (replChar '\\' ['\\', '\\'])).flatMap
        (replChar '\n' ['\\', 'n'])).flatMap
          (replChar ';' ['\\', ';'])).flatMap (replChar ',' ['\\', ',']) =
      l.flatMap escapeRefChar := by
  induction l with
  | nil => rfl
  | cons c t ih =>
    simp only [List.flatMap_cons, List.flatMap_append]
    rw [ih]
    congr 1
    by_cases h1 : c = '\\'
    · subst h1; rfl
    by_cases h2 : c = '\n'
    · subst h2; rfl
    by_cases h3 : c = ';'
    · subst h3; rfl
    by_cases h4 : c = ','
    · subst h4; rfl
    · simp [replChar, escapeRefChar, h1, h2, h3, h4]

theorem escape_chain_B (l : List Char) :
    (((l.flatMap (replChar '\\' ['\\', '\\'])).flatMap
        (replChar '\n' ['\\', 'n'])).flatMap
          (replChar ',' ['\\', ','])).flatMap (replChar ';' ['\\', ';']) =
      l.flatMap escapeRefChar := by
  induction l with
  | nil => rfl
  | cons c t ih =>
    simp only [List.flatMap_cons, List.flatMap_append]
    rw [ih]
    congr 1
    by_cases h1 : c = '\\'
    · subst h1; rfl
    by_cases h2 : c = '\n'
    · subst h2; rfl
    by_cases h3 : c = ';'
    · subst h3; rfl
    by_cases h4 : c = ','
    · subst h4; rfl
    · simp [replChar, escapeRefChar, h1, h2, h3, h4]

/-- Claim C4: both escaping functions of the source equal, on every input
string, the reference substitution of the spec — backslash to double
backslash, newline to the backslash n pair, semicolon and comma to their
backslash-escaped forms, every other character unchanged.  Variant B
applies the comma replace before the semicolon replace, but the resulting
function is the same substitution. -/
theorem c4_escape_reference (s : String) :
    A.escapeICSText s = specEscapeSubstitution s ∧
    B.escapeICSText s = specEscapeSubstitution s :=
  ⟨congrArg String.mk (escape_chain_A s.data),
   congrArg String.mk (escape_chain_B s.data)⟩

theorem decDigitChar_val : ∀ d < 10, (decDigitChar d).toNat - 48 = d := by
  decide

theorem decDigitChar_isDigit (d : Nat) : (decDigitChar d).isDigit = true := by
  rcases d with _|_|_|_|_|_|_|_|_|d <;> rfl

theorem valFrom_cons (a : Nat) (c : Char) (l : List Char) :
    valFrom a (c :: l) = valFrom (a * 10 + (c.toNat - 48)) l := rfl

theorem valFrom_natDigitsAux :
    ∀ (fuel n : Nat), n < fuel → ∀ (acc : List Char),
      valFrom 0 (natDigitsAux fuel n acc) = valFrom n acc := by
  intro fuel
  induction fuel with
  | zero => intro n h; exact absurd h (Nat.not_lt_zero n)
  | succ fuel ih =>
    intro n h acc
    rw [natDigitsAux]
    split
    · next h10 =>
      rw [valFrom_cons, decDigitChar_val n h10]
      norm_num
    · next h10 =>
      rw [ih (n / 10) (by omega) (decDigitChar (n % 10) :: acc),
        valFrom_cons, decDigitChar_val (n % 10) (by omega)]
      have hx : n / 10 * 10 + n % 10 = n := by omega
      rw [hx]

theorem natDigits_inj {m n : Nat}
    (h : natDigitsAux (m + 1) m [] = natDigitsAux (n + 1) n []) : m = n := by
  have h2 := congrArg (valFrom 0) h
  rw [valFrom_natDigitsAux (m + 1) m (by omega) [],
    valFrom_natDigitsAux (n + 1) n (by omega) []] at h2
  exact h2

theorem natDigitsAux_isDigit :
    ∀ (fuel n : Nat) (acc : List Char), (∀ c ∈ acc, c.isDigit = true) →
      ∀ c ∈ natDigitsAux fuel n acc, c.isDigit = true := by
  intro fuel
  induction fuel with
  | zero => intro n acc hacc c hc; exact hacc c hc
  | succ fuel ih =>
    intro n acc hacc c hc
    rw [natDigitsAux] at hc
    split at hc
    · rcases List.mem_cons.mp hc with hc | hc
      · rw [hc]; exact decDigitChar_isDigit _
      · exact hacc c hc
    · refine ih (n / 10) _ ?_ c hc
      intro d hd
      rcases List.mem_cons.mp hd with hd | hd
      · rw [hd]; exact decDigitChar_isDigit _
      · exact hacc d hd

theorem natToString_no_dash (n : Nat) : '-' ∉ (natToString n).data := by
  intro hc
  have := natDigitsAux_isDigit (n + 1) n [] (by simp) '-' hc
  exact absurd this (by decide)

theorem append_sep_split {sep : Char} :
    ∀ (a1 a2 b1 b2 : List Char),
      a1 ++ sep :: b1 = a2 ++ sep :: b2 → sep ∉ a1 → sep ∉ a2 →
        a1 = a2 ∧ b1 = b2 := by
  intro a1
  induction a1 with
  | nil =>
    intro a2 b1 b2 h h1 h2
    cases a2 with
    | nil =>
      simp only [List.nil_append, List.cons.injEq] at h
      exact ⟨rfl, h.2⟩
    | cons x t =>
      simp only [List.nil_append, List.cons_append, List.cons.injEq] at h
      exact absurd (h.1 ▸ List.mem_cons_self x t) h2
  | cons x t ih =>
    intro a2 b1 b2 h h1 h2
    cases a2 with
    | nil =>
      simp only [List.nil_append, List.cons_append, List.cons.injEq] at h
      exact absurd (h.1.symm ▸ List.mem_cons_self x t) h1
    | cons y u =>
      simp only [List.cons_append, List.cons.injEq] at h
      obtain ⟨hxy, hrest⟩ := h
      have hr := ih u b1 b2 hrest
        (fun hm => h1 (List.mem_cons_of_mem _ hm))
        (fun hm => h2 (List.mem_cons_of_mem _ hm))
      exact ⟨by rw [hxy, hr.1], hr.2⟩

/-- Claim C7: within one run of the variant A document builder, the UIDs
of distinct event positions are always distinct, whatever clock values the
per-event `Date.now()` calls return, because the index component is
decimal-rendered between a dash that cannot occur in the clock digits and
the fixed domain suffix.  For variant B, distinct `crypto.randomUUID`
components always give distinct UIDs under the fixed domain suffix. -/
theorem c7_uid_distinct (time : Nat → Nat) (i j : Nat) (h : i ≠ j) :
    A.uid (time i) i ≠ A.uid (time j) j ∧
    ∀ u v : String, u ≠ v → B.generateUID u ≠ B.generateUID v := by
  constructor
  · intro heq
    apply h
    have hd := congrArg String.data heq
    simp only [A.uid, String.data_append, List.append_assoc,
      show ("-" : String).data = ['-'] from rfl, List.singleton_append] at hd
    have h1 := List.append_cancel_left hd
    obtain ⟨-, h2⟩ := append_sep_split _ _ _ _ h1
      (natToString_no_dash _) (natToString_no_dash _)
    exact natDigits_inj (List.append_cancel_right h2)
  · intro u v huv heq
    apply huv
    have hd := congrArg String.data heq
    simp only [B.generateUID, String.data_append] at hd
    have := List.append_cancel_right hd
    cases u with
    | mk ud =>
      cases v with
      | mk vd => exact congrArg String.mk (by simpa using this)

/-- Witness for C7 at concrete inputs. -/
theorem c7_witness :
    A.uid 5 0 ≠ A.uid 5 1 ∧ B.generateUID "a" ≠ B.generateUID "b" :=
  ⟨(c7_uid_distinct (fun _ => 5) 0 1 (by decide)).1,
   (c7_uid_distinct (fun _ => 5) 0 1 (by decide)).2 "a" "b" (by decide)⟩
